import Mathlib

/-!
Shallow embedding of the credential matcher (src/src/lib.rs): a WASM module
that receives a request buffer and a catalog ("credentials") buffer from the
host, decodes the catalog's binary container (12-byte header, icon-size
table, JSON payload, concatenated icon blobs), decodes both JSON payloads,
and emits one AddExportEntry call per catalog entry whose supported
credential types intersect the requested set.

Machine integers: the target is wasm32, so usize is 32 bits and i32-to-usize
casts reinterpret two's complement; unchecked usize additions wrap mod 2^32
(release semantics).  Rust operations that can panic (slice indexing,
CString::new(..).unwrap()) are modelled with Option / explicit panic
outcomes.  The serde_json parsers are external library code and are taken
as parameters (functions from the raw bytes of the region to an optional
decoded value); UTF-8 validation (std's from_utf8) is modelled concretely.
-/

namespace Credman

/-- Decoded request JSON (struct `Request`, lib.rs lines 37-41). -/
structure Request where
  credential_types : Option (List String)
deriving DecidableEq

/-- Decoded display info (struct `DisplayInfo`, lib.rs lines 44-49). -/
structure DisplayInfo where
  user_name : String
  icon_id : Option Nat
  account_name : Option String
deriving DecidableEq

/-- Decoded catalog entry (struct `Entry`, lib.rs lines 52-57). -/
structure Entry where
  id : String
  supported_credential_types : Option (List String)
  display_info : DisplayInfo
deriving DecidableEq

/-- Decoded catalog root (struct `Credentials`, lib.rs lines 60-63). -/
structure Credentials where
  entries : Option (List Entry)
deriving DecidableEq

/-- One AddExportEntry call as observed by the host (lib.rs lines 212-219).
`icon = some (offset, len)` models a non-null pointer into the catalog
buffer at `offset` with length `len`; `none` models the null pointer with
zero length. -/
structure ExportRecord where
  id : String
  icon : Option (Nat × Nat)
  username : String
  provider_name : String
  display_name : String
deriving DecidableEq

/-- Little-endian word read of 4 bytes (wasm32 native order). -/
def readWordLE (buffer : List Nat) (offset : Nat) : Nat :=
  buffer.getD offset 0 + 256 * buffer.getD (offset + 1) 0 +
    65536 * buffer.getD (offset + 2) 0 + 16777216 * buffer.getD (offset + 3) 0

/-- Reinterpret a 32-bit word as a signed i32 value. -/
def toI32 (n : Nat) : Int :=
  if n % 2 ^ 32 < 2 ^ 31 then ((n % 2 ^ 32 : Nat) : Int)
  else ((n % 2 ^ 32 : Nat) : Int) - 2 ^ 32

/-- `read_i32` (lib.rs lines 87-90): reads `buffer[offset..offset+4]` as a
native-endian i32.  The Rust slice panics when `offset+4` exceeds the buffer
length; `none` models that panic. -/
def read_i32 (buffer : List Nat) (offset : Nat) : Option Int :=
  if offset + 4 ≤ buffer.length then some (toI32 (readWordLE buffer offset)) else none

/-- `v as usize` on wasm32 (32-bit usize): two's-complement reinterpretation. -/
def i32ToUsize (v : Int) : Nat := (v % 2 ^ 32).toNat

/-- Outcome of the container-header phase (lib.rs lines 122-140). -/
inductive ContainerOutcome where
  | ret0
  | panicked
  | ok (header_size creds_size : Nat) (icon_offsets : List (Nat × Nat))
deriving DecidableEq

/-- The icon-offset loop (lib.rs lines 134-140): reads `count` i32 sizes
starting at byte offset `sizeOff`, accumulating a running start offset
(wrapping mod 2^32 as wasm32 usize addition does).  `none` models the
read_i32 slice panic when the size table runs past the buffer. -/
def iconLoop (buffer : List Nat) (sizeOff cur : Nat) : Nat → Option (List (Nat × Nat))
  | 0 => some []
  | count + 1 =>
    match read_i32 buffer sizeOff with
    | none => none
    | some v =>
      let sz := i32ToUsize v
      match iconLoop buffer (sizeOff + 4) ((cur + sz) % 2 ^ 32) count with
      | none => none
      | some rest => some ((cur, sz) :: rest)

/-- Container-header phase of `main` (lib.rs lines 122-140): the length
check, the three header reads, and the icon-offset loop. -/
def decodeContainer (buffer : List Nat) : ContainerOutcome :=
  if buffer.length < 12 then ContainerOutcome.ret0
  else
    match read_i32 buffer 0, read_i32 buffer 4, read_i32 buffer 8 with
    | some h, some c, some ic =>
      let hs := i32ToUsize h
      let cs := i32ToUsize c
      match iconLoop buffer 12 ((hs + cs) % 2 ^ 32) (i32ToUsize ic) with
      | none => ContainerOutcome.panicked
      | some tbl => ContainerOutcome.ok hs cs tbl
    | _, _, _ => ContainerOutcome.panicked

/-- Outcome of slicing the JSON region out of the catalog buffer. -/
inductive RegionOutcome where
  | ret0
  | panicked
  | ok (bytes : List Nat)
deriving DecidableEq

/-- JSON-region extraction (lib.rs lines 155-161): the `header_size >= len`
early return, then the slice `&buffer[header_size..header_size+creds_size]`,
which panics when the end passes the buffer length or the bounds cross
(`json_end` is a wasm32 usize sum, wrapping mod 2^32). -/
def extractJsonRegion (buffer : List Nat) (hs cs : Nat) : RegionOutcome :=
  if buffer.length ≤ hs then RegionOutcome.ret0
  else
    let json_end := (hs + cs) % 2 ^ 32
    if hs ≤ json_end ∧ json_end ≤ buffer.length then
      RegionOutcome.ok ((buffer.take json_end).drop hs)
    else RegionOutcome.panicked

/-- UTF-8 validation automaton step, per Rust std's validator:
`utf8v n lo hi l` holds when `l` is a valid continuation of a stream that
still needs `n` continuation bytes, the first of which must lie in
`[lo, hi]` (subsequent ones in `[128, 191]`). `n = 0` means a character
boundary. -/
def utf8v : Nat → Nat → Nat → List Nat → Bool
  | 0, _, _, [] => true
  | _ + 1, _, _, [] => false
  | 0, _, _, b :: rest =>
    if b < 128 then utf8v 0 0 0 rest
    else if 194 ≤ b ∧ b ≤ 223 then utf8v 1 128 191 rest
    else if b = 224 then utf8v 2 160 191 rest
    else if (225 ≤ b ∧ b ≤ 236) ∨ b = 238 ∨ b = 239 then utf8v 2 128 191 rest
    else if b = 237 then utf8v 2 128 159 rest
    else if b = 240 then utf8v 3 144 191 rest
    else if 241 ≤ b ∧ b ≤ 243 then utf8v 3 128 191 rest
    else if b = 244 then utf8v 3 128 143 rest
    else false
  | n + 1, lo, hi, b :: rest =>
    if lo ≤ b ∧ b ≤ hi then utf8v n 128 191 rest else false

/-- `std::str::from_utf8` succeeds exactly on valid UTF-8 byte sequences. -/
def validUtf8 (l : List Nat) : Bool := utf8v 0 0 0 l

/-- `trim_matches(char::from(0))` (lib.rs line 163) at the byte level: strip
NUL bytes from both ends (NUL is a one-byte character in UTF-8). -/
def trimNulBytes (l : List Nat) : List Nat :=
  List.reverse (List.dropWhile (fun b => b == 0)
    (List.reverse (List.dropWhile (fun b => b == 0) l)))

/-- Catalog-JSON decoding (lib.rs lines 162-170): UTF-8 check, NUL trim,
then the serde_json parse, abstracted as `parse` over the trimmed bytes. -/
def decodeCatalogJson (parse : List Nat → Option Credentials) (region : List Nat) :
    Option Credentials :=
  if validUtf8 region then parse (trimNulBytes region) else none

/-- True when a string contains a NUL character (a NUL byte in its UTF-8
encoding), which makes `CString::new` fail. -/
def hasNulByte (s : String) : Bool := s.toList.any (fun c => c.toNat = 0)

/-- The match test (lib.rs lines 176-186): an entry matches when some
string of its `supported_credential_types` is contained in the requested
list. -/
def entryMatches (req_types : List String) (e : Entry) : Bool :=
  match e.supported_credential_types with
  | some supported => supported.any (fun t => req_types.contains t)
  | none => false

/-- Display-name computation (lib.rs lines 194-196): the entry's
`account_name` (empty when absent), passed through
`CString::new(..).unwrap_or_default()`, which silently yields the empty
string when the name contains a NUL byte. -/
def displayNameOf (e : Entry) : String :=
  let account_name_str := e.display_info.account_name.getD ""
  if hasNulByte account_name_str then "" else account_name_str

/-- The export record built for a matched entry (lib.rs lines 190-219),
assuming the CString constructions do not panic. -/
def exportRecordOf (icon_offsets : List (Nat × Nat)) (e : Entry) : ExportRecord :=
  { id := e.id
    icon := e.display_info.icon_id.bind (fun idx => icon_offsets[idx]?)
    username := e.display_info.user_name
    provider_name := "default_provider"
    display_name := displayNameOf e }

/-- Per-entry export step (lib.rs lines 188-219): `none` models the panic of
`CString::new(entry.id).unwrap()` / `CString::new(..user_name).unwrap()`
when the string holds an interior NUL byte. -/
def exportEntry (icon_offsets : List (Nat × Nat)) (e : Entry) : Option ExportRecord :=
  if hasNulByte e.id || hasNulByte e.display_info.user_name then none
  else some (exportRecordOf icon_offsets e)

/-- The matching loop over entries (lib.rs lines 175-221): returns the list
of emitted AddExportEntry records in order, and whether the loop panicked
(in which case emission stops at the panic point). -/
def processEntries (req_types : List String) (icon_offsets : List (Nat × Nat)) :
    List Entry → List ExportRecord × Bool
  | [] => ([], false)
  | e :: rest =>
    if entryMatches req_types e then
      match exportEntry icon_offsets e with
      | none => ([], true)
      | some r =>
        let p := processEntries req_types icon_offsets rest
        (r :: p.1, p.2)
    else processEntries req_types icon_offsets rest

/-- The matching phase (lib.rs lines 173-223): the two `if let Some` guards
around the entry loop. -/
def matchPhase (req : Request) (cred : Credentials) (icon_offsets : List (Nat × Nat)) :
    List ExportRecord × Bool :=
  match req.credential_types with
  | none => ([], false)
  | some req_types =>
    match cred.entries with
    | none => ([], false)
    | some entries => processEntries req_types icon_offsets entries

/-- Observable outcome of one invocation of `main`: either a returned status
code with the emitted records, or a panic after the listed emissions. -/
inductive MainOutcome where
  | status (code : Int) (emissions : List ExportRecord)
  | panic (emissions : List ExportRecord)
deriving DecidableEq

/-- The whole of `main` (lib.rs lines 104-227) over the two host-supplied
buffers, with the two serde_json parsers abstracted as parameters over the
relevant raw bytes. Phase order follows the source: container header and
icon loop (122-140), request UTF-8 plus JSON (144-151), catalog region
slice (155-161), catalog UTF-8, trim and JSON (162-170), matching and
export (173-223), final `0` (226). -/
def mainModel (parseRequest : List Nat → Option Request)
    (parseCreds : List Nat → Option Credentials)
    (request_buffer credentials_buffer : List Nat) : MainOutcome :=
  match decodeContainer credentials_buffer with
  | ContainerOutcome.ret0 => MainOutcome.status 0 []
  | ContainerOutcome.panicked => MainOutcome.panic []
  | ContainerOutcome.ok hs cs tbl =>
    match (if validUtf8 request_buffer then parseRequest request_buffer else none) with
    | none => MainOutcome.status 0 []
    | some req =>
      match extractJsonRegion credentials_buffer hs cs with
      | RegionOutcome.ret0 => MainOutcome.status 0 []
      | RegionOutcome.panicked => MainOutcome.panic []
      | RegionOutcome.ok region =>
        match decodeCatalogJson parseCreds region with
        | none => MainOutcome.status 0 []
        | some cred =>
          let p := matchPhase req cred tbl
          if p.2 then MainOutcome.panic p.1 else MainOutcome.status 0 p.1

/-- Little-endian encoding of a (non-negative, below 2^31) i32 value. -/
def i32le (v : Nat) : List Nat :=
  [v % 256, v / 256 % 256, v / 65536 % 256, v / 16777216 % 256]

/-- The icon table the spec describes (section 3 and 4.1): contiguous
(offset, length) pairs starting at `start`, in table order, with no gaps. -/
def iconTableSpec (start : Nat) : List Nat → List (Nat × Nat)
  | [] => []
  | l :: ls => (start, l) :: iconTableSpec (start + l) ls

/-- Modelled from the spec: encoder of a synthetic container with chosen
header values (spec sections 4.1 and 8, round-trip property); the source
has no encoder.  Layout: three little-endian i32 header fields, the
icon-size table, padding up to `header_size`, the JSON bytes, the icon
blobs. -/
def encodeContainer (hs cs : Nat) (lens : List Nat) (padding json icons : List Nat) :
    List Nat :=
  i32le hs ++ i32le cs ++ i32le lens.length ++ (lens.map i32le).flatten ++
    padding ++ json ++ icons

/-- Concrete catalog buffer for C1: exactly 12 bytes, header claims one
icon, so the icon-size read at offset 12 falls outside the buffer. -/
def bufC1 : List Nat := [0, 0, 0, 0, 0, 0, 0, 0, 1, 0, 0, 0]

/-- Concrete catalog buffer for C3: length 12, header_size 4, creds_size 20,
so header_size + creds_size = 24 exceeds the length while header_size does
not. -/
def bufC3 : List Nat := [4, 0, 0, 0, 20, 0, 0, 0, 0, 0, 0, 0]

/-- Concrete catalog buffer for C4: header_size 16, creds_size 1, one icon
whose declared length 1000 exceeds the remaining buffer (nothing follows
the JSON byte). -/
def bufC4 : List Nat := [16, 0, 0, 0, 1, 0, 0, 0, 1, 0, 0, 0, 232, 3, 0, 0, 120]

/-- Concrete catalog buffer for C7: header_size 12, creds_size 1, no icons,
one JSON byte. -/
def bufC7 : List Nat := [12, 0, 0, 0, 1, 0, 0, 0, 0, 0, 0, 0, 120]

/-- Entry matching type t whose icon_id 0 points into the corrupt table of
bufC4. -/
def entryC4 : Entry := ⟨"a", some ["t"], ⟨"u", some 0, none⟩⟩

/-- Entry whose id is a single NUL character: well-formed JSON, but
CString::new panics on it. -/
def entryNulId : Entry := ⟨"\x00", some ["t"], ⟨"u", none, none⟩⟩

/-- Matched entry with an out-of-range icon_id and a NUL in its id. -/
def entryC6bad : Entry := ⟨"x\x00", some ["t"], ⟨"u", some 9, none⟩⟩

/-- NUL-free entry with an out-of-range icon_id. -/
def entryC6 : Entry := ⟨"b", some ["x"], ⟨"v", some 5, some "acct"⟩⟩

/-- Entry whose account_name holds an interior NUL. -/
def entryC8 : Entry := ⟨"c", some ["t"], ⟨"w", none, some "a\x00b"⟩⟩

/-- Entry supporting typeA (spec section 8 concrete scenario). -/
def entryA : Entry := ⟨"id1", some ["typeA"], ⟨"u1", none, none⟩⟩

/-- Entry supporting typeB (spec section 8 concrete scenario). -/
def entryB : Entry := ⟨"id2", some ["typeB"], ⟨"u2", none, none⟩⟩

/- ------------------------------------------------------------------ -/
/- Helper lemmas                                                      -/
/- ------------------------------------------------------------------ -/

theorem processEntries_nil_req (tbl : List (Nat × Nat)) (es : List Entry) :
    processEntries [] tbl es = ([], false) := by
  induction es with
  | nil => rfl
  | cons e rest ih =>
    simp only [processEntries, entryMatches]
    cases h : e.supported_credential_types with
    | none => simpa using ih
    | some s => simp [List.contains, ih]

theorem matchPhase_empty (rt : Option (List String)) (h : rt = none ∨ rt = some [])
    (cred : Credentials) (tbl : List (Nat × Nat)) :
    matchPhase ⟨rt⟩ cred tbl = ([], false) := by
  rcases h with h0 | h0 <;> subst h0
  · rfl
  · show matchPhase ⟨some []⟩ cred tbl = ([], false)
    unfold matchPhase
    cases cred.entries with
    | none => rfl
    | some es => exact processEntries_nil_req tbl es

theorem entryMatches_iff (req_types : List String) (e : Entry) :
    entryMatches req_types e = true ↔
      ∃ t, t ∈ e.supported_credential_types.getD [] ∧ t ∈ req_types := by
  cases h : e.supported_credential_types with
  | none => simp [entryMatches, h]
  | some s => simp [entryMatches, h, List.any_eq_true]

theorem processEntries_filter_map (req_types : List String) (tbl : List (Nat × Nat))
    (entries : List Entry)
    (hnul : ∀ e, e ∈ entries → entryMatches req_types e = true →
      hasNulByte e.id = false ∧ hasNulByte e.display_info.user_name = false) :
    processEntries req_types tbl entries
      = ((entries.filter (fun e => entryMatches req_types e)).map (exportRecordOf tbl),
        false) := by
  induction entries with
  | nil => rfl
  | cons e rest ih =>
    by_cases hm : entryMatches req_types e = true
    · have hn := hnul e (List.mem_cons_self e rest) hm
      have hx : exportEntry tbl e = some (exportRecordOf tbl e) := by
        simp [exportEntry, hn.1, hn.2]
      have ihr := ih (fun x hmem hmx => hnul x (List.mem_cons_of_mem e hmem) hmx)
      simp [processEntries, hm, hx, ihr, List.filter_cons, List.map_cons]
    · have ihr := ih (fun x hmem hmx => hnul x (List.mem_cons_of_mem e hmem) hmx)
      simp only [processEntries]
      rw [if_neg hm]
      simp [ihr, List.filter_cons, hm]

theorem utf8v_zeros (k : Nat) : ∀ lo hi, utf8v 0 lo hi (List.replicate k 0) = true := by
  induction k with
  | zero => intro lo hi; rfl
  | succ n ih => intro lo hi; simpa [List.replicate, utf8v] using ih 0 0

theorem utf8v_append_zeros (l : List Nat) (k : Nat) :
    ∀ n lo hi, (n = 0 ∨ 128 ≤ lo) →
      utf8v n lo hi (l ++ List.replicate k 0) = utf8v n lo hi l := by
  induction l with
  | nil =>
    intro n lo hi h
    cases n with
    | zero => simpa [utf8v] using utf8v_zeros k lo hi
    | succ m =>
      cases k with
      | zero => simp
      | succ j =>
        have hlo : 128 ≤ lo := by
          rcases h with h0 | h1
          · exact absurd h0 (Nat.succ_ne_zero m)
          · exact h1
        simp only [List.nil_append, List.replicate, utf8v]
        rw [if_neg (by omega)]
  | cons b rest ih =>
    intro n lo hi h
    cases n with
    | zero =>
      show utf8v 0 lo hi (b :: (rest ++ List.replicate k 0)) = utf8v 0 lo hi (b :: rest)
      simp only [utf8v]
      split
      · exact ih 0 0 0 (Or.inl rfl)
      · split
        · exact ih 1 128 191 (Or.inr (by omega))
        · split
          · exact ih 2 160 191 (Or.inr (by omega))
          · split
            · exact ih 2 128 191 (Or.inr (by omega))
            · split
              · exact ih 2 128 159 (Or.inr (by omega))
              · split
                · exact ih 3 144 191 (Or.inr (by omega))
                · split
                  · exact ih 3 128 191 (Or.inr (by omega))
                  · split
                    · exact ih 3 128 143 (Or.inr (by omega))
                    · rfl
    | succ m =>
      show utf8v (m + 1) lo hi (b :: (rest ++ List.replicate k 0))
          = utf8v (m + 1) lo hi (b :: rest)
      simp only [utf8v]
      split
      · exact ih m 128 191 (by cases m <;> simp)
      · rfl

theorem validUtf8_append_zeros (l : List Nat) (k : Nat) :
    validUtf8 (l ++ List.replicate k 0) = validUtf8 l :=
  utf8v_append_zeros l k 0 0 0 (Or.inl rfl)

theorem dropWhile_zeros_append (k : Nat) (l : List Nat) :
    List.dropWhile (fun b => b == 0) (List.replicate k 0 ++ l)
      = List.dropWhile (fun b => b == 0) l := by
  induction k with
  | zero => rfl
  | succ n ih => simp [List.replicate, List.dropWhile, ih]

theorem dropWhile_zeros_nil (k : Nat) :
    List.dropWhile (fun b => b == 0) (List.replicate k 0) = ([] : List Nat) := by
  simp [dropWhile_zeros_append k []]

theorem trimNulBytes_append_zeros (l : List Nat) (k : Nat) :
    trimNulBytes (l ++ List.replicate k 0) = trimNulBytes l := by
  unfold trimNulBytes
  cases h : List.dropWhile (fun b => b == 0) l with
  | nil =>
    have h2 : List.dropWhile (fun b => b == 0) (l ++ List.replicate k 0)
        = ([] : List Nat) := by
      rw [List.dropWhile_append, h]
      simp [dropWhile_zeros_nil k]
    rw [h2]
  | cons c t =>
    have h2 : List.dropWhile (fun b => b == 0) (l ++ List.replicate k 0)
        = (c :: t) ++ List.replicate k 0 := by
      rw [List.dropWhile_append, h]
      simp
    rw [h2, List.reverse_append, List.reverse_replicate, dropWhile_zeros_append]

theorem i32le_length (v : Nat) : (i32le v).length = 4 := rfl

theorem readWordLE_at (pre suf : List Nat) (v : Nat) (hv : v < 2 ^ 32) :
    readWordLE (pre ++ (i32le v ++ suf)) pre.length = v := by
  have g : ∀ i, i < 4 →
      (pre ++ (i32le v ++ suf)).getD (pre.length + i) 0 = (i32le v).getD i 0 := by
    intro i hi
    rw [List.getD_append_right _ _ _ _ (Nat.le_add_right _ _), Nat.add_sub_cancel_left]
    exact List.getD_append _ _ _ _ (by simp [i32le_length, hi])
  have g0 : (pre ++ (i32le v ++ suf)).getD pre.length 0 = (i32le v).getD 0 0 := by
    exact g 0 (by omega)
  have g1 := g 1 (by omega)
  have g2 := g 2 (by omega)
  have g3 := g 3 (by omega)
  unfold readWordLE
  rw [g0, g1, g2, g3]
  simp [i32le]
  omega

theorem toI32_small (v : Nat) (hv : v < 2 ^ 31) : toI32 v = (v : Int) := by
  unfold toI32
  rw [Nat.mod_eq_of_lt (by omega)]
  rw [if_pos hv]

theorem i32ToUsize_coe (v : Nat) (hv : v < 2 ^ 32) : i32ToUsize (v : Int) = v := by
  unfold i32ToUsize
  rw [Int.emod_eq_of_lt (by omega) (by exact_mod_cast hv)]
  exact Int.toNat_natCast v

theorem read_i32_at (pre suf : List Nat) (v : Nat) (hv : v < 2 ^ 31) :
    read_i32 (pre ++ (i32le v ++ suf)) pre.length = some ((v : Nat) : Int) := by
  unfold read_i32
  rw [if_pos (by simp only [List.length_append, i32le_length]; omega)]
  rw [readWordLE_at pre suf v (by omega), toI32_small v hv]

theorem iconLoop_encode (lens : List Nat) :
    ∀ (pre suf : List Nat) (cur : Nat),
      (∀ l ∈ lens, l < 2 ^ 31) → cur + lens.sum < 2 ^ 32 →
      iconLoop (pre ++ ((lens.map i32le).flatten ++ suf)) pre.length cur lens.length
        = some (iconTableSpec cur lens) := by
  induction lens with
  | nil =>
    intro pre suf cur _ _
    rfl
  | cons l ls ih =>
    intro pre suf cur hl hsum
    have hl0 : l < 2 ^ 31 := hl l (List.mem_cons_self l ls)
    have hbuf : pre ++ (((l :: ls).map i32le).flatten ++ suf)
        = pre ++ (i32le l ++ ((ls.map i32le).flatten ++ suf)) := by
      simp [List.map_cons, List.flatten_cons, List.append_assoc]
    show iconLoop (pre ++ (((l :: ls).map i32le).flatten ++ suf)) pre.length cur
        (ls.length + 1) = some (iconTableSpec cur (l :: ls))
    rw [hbuf]
    simp only [iconLoop]
    rw [read_i32_at pre _ l hl0]
    simp only
    have hcast : i32ToUsize ((l : Nat) : Int) = l := i32ToUsize_coe l (by omega)
    rw [hcast]
    have hmod : (cur + l) % 2 ^ 32 = cur + l := by
      apply Nat.mod_eq_of_lt
      have : l ≤ (l :: ls).sum := by simp [List.sum_cons]
      omega
    rw [hmod]
    have hre : pre ++ (i32le l ++ ((ls.map i32le).flatten ++ suf))
        = (pre ++ i32le l) ++ ((ls.map i32le).flatten ++ suf) := by
      simp [List.append_assoc]
    have hlen : pre.length + 4 = (pre ++ i32le l).length := by
      simp [i32le_length]
    rw [hre, hlen]
    rw [ih (pre ++ i32le l) suf (cur + l)
      (fun x hx => hl x (List.mem_cons_of_mem l hx))
      (by simp [List.sum_cons] at hsum ⊢; omega)]
    rfl

theorem iconTableSpec_get (lens : List Nat) :
    ∀ start i, i < lens.length →
      (iconTableSpec start lens)[i]? = some (start + (lens.take i).sum, lens.getD i 0) := by
  induction lens with
  | nil => intro start i h; simp at h
  | cons l ls ih =>
    intro start i h
    cases i with
    | zero => simp [iconTableSpec]
    | succ j =>
      have hj : j < ls.length := by simpa using h
      simp only [iconTableSpec, List.getElem?_cons_succ]
      rw [ih (start + l) j hj]
      simp [List.take_succ_cons, List.sum_cons, Nat.add_assoc]

theorem flatten_map_i32le_length (lens : List Nat) :
    ((lens.map i32le).flatten).length = 4 * lens.length := by
  induction lens with
  | nil => rfl
  | cons l ls ih =>
    simp only [List.map_cons, List.flatten_cons, List.length_append, i32le_length, ih,
      List.length_cons]
    ring

/- ------------------------------------------------------------------ -/
/- Claim theorems                                                     -/
/- ------------------------------------------------------------------ -/

/-- C1: the claim says main never crashes and never reads out of bounds
for any pair of input buffers.  The code violates this: on a 12-byte
catalog whose header declares icon_count = 1, the icon-size read at
offset 12 indexes past the buffer and panics, whatever the request buffer
and whatever the JSON parsers would return. -/
theorem C1_icon_table_overread :
    (∀ (pR : List Nat → Option Request) (pC : List Nat → Option Credentials)
      (req : List Nat), mainModel pR pC req bufC1 = MainOutcome.panic [])
    ∧ bufC1.length = 12 :=
  ⟨fun _ _ _ => rfl, rfl⟩

/-- C2 (counterexample to the claim as stated): a request and catalog that
both decode successfully, with a non-empty intersection of credential
types, yet the entry is never exported: its id is the NUL character, so
CString::new panics and zero AddExportEntry calls happen. -/
theorem C2_counterexample :
    entryMatches ["t"] entryNulId = true
    ∧ matchPhase ⟨some ["t"]⟩ ⟨some [entryNulId]⟩ [] = ([], true) := by
  decide

/-- C2 (amended): for every decoded request and catalog, provided no
matched entry's id or user_name contains an interior NUL, an entry is
exported iff its supported_credential_types intersect the requested set,
exactly once per qualifying entry, in catalog order (the emission list is
the order-preserving filter of the entry list), and no panic occurs. -/
theorem C2_matcher (req_types : List String) (tbl : List (Nat × Nat))
    (entries : List Entry)
    (hnul : ∀ e, e ∈ entries → entryMatches req_types e = true →
      hasNulByte e.id = false ∧ hasNulByte e.display_info.user_name = false) :
    matchPhase ⟨some req_types⟩ ⟨some entries⟩ tbl
      = ((entries.filter (fun e => entryMatches req_types e)).map (exportRecordOf tbl),
        false)
    ∧ ∀ e, entryMatches req_types e = true ↔
        ∃ t, t ∈ e.supported_credential_types.getD [] ∧ t ∈ req_types := by
  constructor
  · exact processEntries_filter_map req_types tbl entries hnul
  · intro e
    exact entryMatches_iff req_types e

/-- C2 witness: the spec's concrete scenario (request typeA, entries for
typeA and typeB) instantiating the amended theorem. -/
theorem C2_witness :
    (∀ e, e ∈ [entryA, entryB] → entryMatches ["typeA"] e = true →
      hasNulByte e.id = false ∧ hasNulByte e.display_info.user_name = false)
    ∧ (matchPhase ⟨some ["typeA"]⟩ ⟨some [entryA, entryB]⟩ []
        = (([entryA, entryB].filter (fun e => entryMatches ["typeA"] e)).map
            (exportRecordOf []), false)
      ∧ ∀ e, entryMatches ["typeA"] e = true ↔
          ∃ t, t ∈ e.supported_credential_types.getD [] ∧ t ∈ ["typeA"]) :=
  ⟨by decide, C2_matcher ["typeA"] [] [entryA, entryB] (by decide)⟩

/-- C3: the claim says a catalog of length at least 12 with
header_size + creds_size beyond the buffer aborts with zero emissions and
status 0.  The code instead panics: bufC3 has length 12, header_size 4,
creds_size 20, the header_size check passes, and the JSON slice
[4..24] is out of range.  (The container decode itself succeeds, the crash
is the region slice.) -/
theorem C3_slice_panic :
    decodeContainer bufC3 = ContainerOutcome.ok 4 20 []
    ∧ 12 ≤ bufC3.length ∧ bufC3.length < 4 + 20
    ∧ mainModel (fun _ => some ⟨none⟩) (fun _ => none) [123, 125] bufC3
        = MainOutcome.panic [] := by
  decide

/-- C4: the claim says an icon length inconsistent with the remaining
buffer aborts with zero emissions.  The code performs no icon-table
validation at all: bufC4 declares one icon of length 1000 with no bytes
after the JSON region, the decode proceeds, and the matched entry is
exported with an icon range (17, 1000) that extends past the 17-byte
buffer. -/
theorem C4_accepts_corrupt_icon_table :
    mainModel (fun _ => some ⟨some ["t"]⟩) (fun _ => some ⟨some [entryC4]⟩)
        [123, 125] bufC4
      = MainOutcome.status 0
          [{ id := "a", icon := some (17, 1000), username := "u",
             provider_name := "default_provider", display_name := "" }]
    ∧ bufC4.length < 17 + 1000 := by
  decide

/-- C5: encoding a well-formed container with chosen header_size,
creds_size and non-negative icon-length list, then decoding it, reproduces
the three header values and yields the icon table whose i-th pair is
(header_size + creds_size + sum of earlier lengths, i-th length):
contiguous, in table order, no gaps or overlaps. -/
theorem C5_roundtrip (hs cs : Nat) (lens padding json icons : List Nat)
    (h1 : hs = 12 + 4 * lens.length + padding.length)
    (h2 : json.length = cs)
    (h3 : icons.length = lens.sum)
    (h4 : hs < 2 ^ 31) (h5 : cs < 2 ^ 31) (h6 : lens.length < 2 ^ 31)
    (h7 : ∀ l ∈ lens, l < 2 ^ 31)
    (h8 : hs + cs + lens.sum < 2 ^ 32) :
    decodeContainer (encodeContainer hs cs lens padding json icons)
      = ContainerOutcome.ok hs cs (iconTableSpec (hs + cs) lens)
    ∧ ∀ i, i < lens.length →
        (iconTableSpec (hs + cs) lens)[i]?
          = some (hs + cs + (lens.take i).sum, lens.getD i 0) := by
  have hlen : (encodeContainer hs cs lens padding json icons).length
      = 12 + 4 * lens.length + padding.length + json.length + icons.length := by
    simp only [encodeContainer, List.length_append, i32le_length, flatten_map_i32le_length]
  have e0 : read_i32 (encodeContainer hs cs lens padding json icons) 0
      = some ((hs : Nat) : Int) := by
    have := read_i32_at [] (i32le cs ++ i32le lens.length ++ (lens.map i32le).flatten ++
      padding ++ json ++ icons) hs h4
    simpa [encodeContainer, List.append_assoc] using this
  have e4 : read_i32 (encodeContainer hs cs lens padding json icons) 4
      = some ((cs : Nat) : Int) := by
    have := read_i32_at (i32le hs) (i32le lens.length ++ (lens.map i32le).flatten ++
      padding ++ json ++ icons) cs h5
    simpa [encodeContainer, List.append_assoc, i32le_length] using this
  have e8 : read_i32 (encodeContainer hs cs lens padding json icons) 8
      = some ((lens.length : Nat) : Int) := by
    have := read_i32_at (i32le hs ++ i32le cs) ((lens.map i32le).flatten ++
      padding ++ json ++ icons) lens.length h6
    simpa [encodeContainer, List.append_assoc, i32le_length] using this
  have eloop : iconLoop (encodeContainer hs cs lens padding json icons) 12 (hs + cs)
      lens.length = some (iconTableSpec (hs + cs) lens) := by
    have := iconLoop_encode lens (i32le hs ++ i32le cs ++ i32le lens.length)
      (padding ++ json ++ icons) (hs + cs) h7 (by omega)
    simpa [encodeContainer, List.append_assoc, i32le_length] using this
  constructor
  · unfold decodeContainer
    rw [if_neg (by omega)]
    rw [e0, e4, e8]
    simp only
    rw [i32ToUsize_coe hs (by omega), i32ToUsize_coe cs (by omega),
      i32ToUsize_coe lens.length (by omega)]
    rw [Nat.mod_eq_of_lt (show hs + cs < 2 ^ 32 by omega)]
    rw [eloop]
  · intro i hi
    exact iconTableSpec_get lens (hs + cs) i hi

/-- C5 witness: a concrete container with header_size 16, creds_size 1 and
icon lengths [2] round-trips. -/
theorem C5_witness :
    ((16 : Nat) = 12 + 4 * List.length [2] + List.length ([] : List Nat)
      ∧ List.length [120] = 1
      ∧ List.length [7, 9] = List.sum [2]
      ∧ (16 : Nat) < 2 ^ 31 ∧ (1 : Nat) < 2 ^ 31 ∧ List.length [2] < 2 ^ 31
      ∧ (∀ l ∈ [2], l < 2 ^ 31)
      ∧ 16 + 1 + List.sum [2] < 2 ^ 32)
    ∧ (decodeContainer (encodeContainer 16 1 [2] [] [120] [7, 9])
        = ContainerOutcome.ok 16 1 (iconTableSpec (16 + 1) [2])
      ∧ ∀ i, i < List.length [2] →
          (iconTableSpec (16 + 1) [2])[i]?
            = some (16 + 1 + ([2].take i).sum, [2].getD i 0)) :=
  ⟨by decide,
    C5_roundtrip 16 1 [2] [] [120] [7, 9] (by decide) (by decide) (by decide)
      (by decide) (by decide) (by decide) (by decide) (by decide)⟩

/-- C6 (counterexample to the claim as stated): a matched entry with
icon_id out of range (table empty) is not exported at all and the
invocation aborts, because its id holds an interior NUL. -/
theorem C6_counterexample :
    entryMatches ["t"] entryC6bad = true
    ∧ entryC6bad.display_info.icon_id = some 9
    ∧ processEntries ["t"] [] [entryC6bad] = ([], true) := by
  decide

/-- C6 (amended): for every matched entry with icon_id present but at or
past the icon table length (including an empty table), provided its id and
user_name hold no interior NUL, the entry is still exported with an empty
icon (null pointer, zero length) and otherwise-normal fields, and the
out-of-range index is local: the loop continues over the remaining
entries. -/
theorem C6_icon_out_of_range (tbl : List (Nat × Nat)) (e : Entry) (idx : Nat)
    (hicon : e.display_info.icon_id = some idx) (hrange : tbl.length ≤ idx)
    (hid : hasNulByte e.id = false) (hun : hasNulByte e.display_info.user_name = false) :
    exportEntry tbl e = some
      { id := e.id, icon := none, username := e.display_info.user_name,
        provider_name := "default_provider", display_name := displayNameOf e }
    ∧ ∀ rts rest, entryMatches rts e = true →
        processEntries rts tbl (e :: rest)
          = ({ id := e.id, icon := none, username := e.display_info.user_name,
               provider_name := "default_provider", display_name := displayNameOf e }
             :: (processEntries rts tbl rest).1, (processEntries rts tbl rest).2) := by
  have hrec : exportEntry tbl e = some
      { id := e.id, icon := none, username := e.display_info.user_name,
        provider_name := "default_provider", display_name := displayNameOf e } := by
    unfold exportEntry
    rw [hid, hun]
    simp only [Bool.or_self, Bool.false_eq_true, if_false]
    unfold exportRecordOf
    rw [hicon]
    simp [List.getElem?_eq_none hrange]
  refine ⟨hrec, ?_⟩
  intro rts rest hm
  simp [processEntries, hm, hrec]

/-- C6 witness: a NUL-free matched entry with icon_id 5 against a
one-element icon table. -/
theorem C6_witness :
    (entryC6.display_info.icon_id = some 5 ∧ List.length [(0, 1)] ≤ 5
      ∧ hasNulByte entryC6.id = false
      ∧ hasNulByte entryC6.display_info.user_name = false)
    ∧ (exportEntry [(0, 1)] entryC6 = some
        { id := entryC6.id, icon := none, username := entryC6.display_info.user_name,
          provider_name := "default_provider", display_name := displayNameOf entryC6 }
      ∧ ∀ rts rest, entryMatches rts entryC6 = true →
          processEntries rts [(0, 1)] (entryC6 :: rest)
            = ({ id := entryC6.id, icon := none,
                 username := entryC6.display_info.user_name,
                 provider_name := "default_provider",
                 display_name := displayNameOf entryC6 }
               :: (processEntries rts [(0, 1)] rest).1,
              (processEntries rts [(0, 1)] rest).2)) :=
  ⟨by decide, C6_icon_out_of_range [(0, 1)] entryC6 5 (by decide) (by decide)
    (by decide) (by decide)⟩

/-- C7: when the request's credentialTypes is absent or the empty list and
both buffers otherwise decode, the invocation emits nothing and returns
status 0, whatever the catalog holds: reaching the matcher with an absent
or empty requested set yields zero emissions and no panic. -/
theorem C7_empty_request (pR : List Nat → Option Request)
    (pC : List Nat → Option Credentials) (reqBuf catBuf : List Nat)
    (hs cs : Nat) (tbl : List (Nat × Nat)) (region : List Nat)
    (cred : Credentials) (rt : Option (List String))
    (h1 : decodeContainer catBuf = ContainerOutcome.ok hs cs tbl)
    (h2 : (if validUtf8 reqBuf then pR reqBuf else none) = some ⟨rt⟩)
    (h3 : rt = none ∨ rt = some [])
    (h4 : extractJsonRegion catBuf hs cs = RegionOutcome.ok region)
    (h5 : decodeCatalogJson pC region = some cred) :
    mainModel pR pC reqBuf catBuf = MainOutcome.status 0 [] := by
  unfold mainModel
  simp only [h1, h2, h4, h5]
  simp [matchPhase_empty rt h3 cred tbl]

/-- C7 witness: a request with absent credentialTypes against a catalog
holding a matching-capable entry still produces zero emissions with
status 0. -/
theorem C7_witness :
    (decodeContainer bufC7 = ContainerOutcome.ok 12 1 []
      ∧ (if validUtf8 [123, 125] then
          (fun _ => some (⟨none⟩ : Request)) [123, 125] else none)
        = some (⟨none⟩ : Request)
      ∧ ((none : Option (List String)) = none
          ∨ (none : Option (List String)) = some [])
      ∧ extractJsonRegion bufC7 12 1 = RegionOutcome.ok [120]
      ∧ decodeCatalogJson (fun _ => some (⟨some [entryA]⟩ : Credentials)) [120]
          = some (⟨some [entryA]⟩ : Credentials))
    ∧ mainModel (fun _ => some (⟨none⟩ : Request))
        (fun _ => some (⟨some [entryA]⟩ : Credentials)) [123, 125] bufC7
      = MainOutcome.status 0 [] :=
  ⟨⟨by decide, by decide, Or.inl rfl, by decide, by decide⟩,
    C7_empty_request (fun _ => some (⟨none⟩ : Request))
      (fun _ => some (⟨some [entryA]⟩ : Credentials)) [123, 125] bufC7 12 1 [] [120]
      ⟨some [entryA]⟩ none (by decide) (by decide) (Or.inl rfl) (by decide) (by decide)⟩

/-- C8 (counterexample to the claim as stated): an entry whose account_name
is present but holds an interior NUL is exported with an empty display_name
rather than its account_name, because CString::new(..).unwrap_or_default()
silently replaces it. -/
theorem C8_counterexample :
    exportEntry [] entryC8 = some
      { id := "c", icon := none, username := "w",
        provider_name := "default_provider", display_name := "" }
    ∧ entryC8.display_info.account_name = some "a\x00b"
    ∧ ("a\x00b" : String) ≠ "" := by
  decide

/-- C8 (amended): every emitted record carries the fixed literal
provider_name "default_provider", and its display_name equals the entry's
account_name when that is present and NUL-free, and the empty string when
it is absent or contains an interior NUL. -/
theorem C8_provider_display (tbl : List (Nat × Nat)) (e : Entry) (r : ExportRecord)
    (h : exportEntry tbl e = some r) :
    r.provider_name = "default_provider"
    ∧ r.display_name = (match e.display_info.account_name with
        | some a => if hasNulByte a then "" else a
        | none => "") := by
  unfold exportEntry at h
  by_cases hid : (hasNulByte e.id || hasNulByte e.display_info.user_name) = true
  · rw [if_pos hid] at h
    exact absurd h (by simp)
  · rw [if_neg hid] at h
    have hr : r = exportRecordOf tbl e := by
      exact (Option.some_injective _ h).symm
    subst hr
    constructor
    · rfl
    · show displayNameOf e = _
      unfold displayNameOf
      cases ha : e.display_info.account_name with
      | none => simp [hasNulByte]
      | some a => simp

/-- C8 witness: a NUL-free entry with a present account_name. -/
theorem C8_witness :
    exportEntry [(3, 4)] entryC6 = some (exportRecordOf [(3, 4)] entryC6)
    ∧ ((exportRecordOf [(3, 4)] entryC6).provider_name = "default_provider"
      ∧ (exportRecordOf [(3, 4)] entryC6).display_name
          = (match entryC6.display_info.account_name with
            | some a => if hasNulByte a then "" else a
            | none => "")) :=
  ⟨by decide,
    C8_provider_display [(3, 4)] entryC6 (exportRecordOf [(3, 4)] entryC6) (by decide)⟩

/-- C9: the catalog decoder strips trailing zero padding from the JSON
region before parsing: for every abstract serde parse, decoding a region
made of some JSON bytes followed by any number of zero bytes gives exactly
the decode of the unpadded bytes (so when the unpadded JSON parses, the
padded region parses to the same entry list). -/
theorem C9_padding_stripped (parse : List Nat → Option Credentials)
    (json : List Nat) (k : Nat) :
    decodeCatalogJson parse (json ++ List.replicate k 0)
      = decodeCatalogJson parse json := by
  unfold decodeCatalogJson
  rw [validUtf8_append_zeros, trimNulBytes_append_zeros]

/-- C10: every emitted record's id, username, provider and display-name
strings are free of interior NUL bytes, and a matched entry whose id or
user_name holds an interior NUL makes the invocation panic at CString
construction: the loop stops with no record emitted for it. -/
theorem C10_nul_handling :
    (∀ (tbl : List (Nat × Nat)) (e : Entry) (r : ExportRecord),
      exportEntry tbl e = some r →
        hasNulByte r.id = false ∧ hasNulByte r.username = false
        ∧ hasNulByte r.provider_name = false ∧ hasNulByte r.display_name = false)
    ∧ ∀ (rts : List String) (tbl : List (Nat × Nat)) (e : Entry) (rest : List Entry),
        entryMatches rts e = true →
        (hasNulByte e.id = true ∨ hasNulByte e.display_info.user_name = true) →
        processEntries rts tbl (e :: rest) = ([], true) := by
  constructor
  · intro tbl e r h
    unfold exportEntry at h
    by_cases hid : (hasNulByte e.id || hasNulByte e.display_info.user_name) = true
    · rw [if_pos hid] at h
      exact absurd h (by simp)
    · rw [if_neg hid] at h
      have hr : r = exportRecordOf tbl e := (Option.some_injective _ h).symm
      subst hr
      simp only [Bool.or_eq_true, not_or, Bool.not_eq_true] at hid
      refine ⟨hid.1, hid.2, (by decide : hasNulByte "default_provider" = false), ?_⟩
      show hasNulByte (displayNameOf e) = false
      unfold displayNameOf
      by_cases hn : hasNulByte (e.display_info.account_name.getD "") = true
      · rw [if_pos hn]
        decide
      · rw [if_neg hn]
        simpa using hn
  · intro rts tbl e rest hm hnul
    have hx : exportEntry tbl e = none := by
      unfold exportEntry
      rcases hnul with h0 | h0 <;> simp [h0]
    simp [processEntries, hm, hx]

/-- C10 witness: an entry with a NUL id that matches the request panics the
loop with zero emissions. -/
theorem C10_witness :
    (entryMatches ["t"] entryNulId = true ∧ hasNulByte entryNulId.id = true)
    ∧ processEntries ["t"] [] [entryNulId] = ([], true) :=
  ⟨by decide,
    C10_nul_handling.2 ["t"] [] entryNulId [] (by decide) (Or.inl (by decide))⟩

end Credman
